import Mathlib

/-!
Verification development for the MusicAgent request-dispatch engine.

The definitions below are a shallow embedding of the Python sources:
  * `src/musicagent/client/http_client.py`   (`DiscogsHTTPClient._handle_response`)
  * `src/musicagent/exceptions/api_exceptions.py`
  * `src/musicagent/utils/retry_handler.py`  (`calculate_backoff`,
    `retry_on_failure`, `RetryStrategy.should_retry`)
  * `src/musicagent/utils/rate_limiter.py`   (`RateLimiter`)

Conventions:
  * Python `float` time values and delays are modelled as rationals (`ℚ`),
    so that arithmetic is exact and all definitions are executable.
  * A decoded JSON document (the result of `response.json()`) is modelled by
    the inductive `Json`; `Option Json` models the body, `none` standing for
    a body that raises `ValueError` when decoded (empty or malformed).
  * Mutable object state is passed explicitly: the rate limiter's deque of
    timestamps is a `List ℚ` (oldest first), and each method returns the new
    list together with its result.
  * Python exceptions that escape a function are modelled with `Option` /
    explicit error constructors.
-/

/-- Decoded JSON value, the possible results of `response.json()`.
Numbers are modelled as integers (no claim depends on fractional JSON
numbers); objects are association lists. -/
inductive Json where
  | null : Json
  | bool (b : Bool) : Json
  | num (n : Int) : Json
  | str (s : String) : Json
  | arr (elems : List Json) : Json
  | obj (fields : List (String × Json)) : Json

/-- The `DiscogsAPIException` hierarchy from `api_exceptions.py`, restricted
to the constructors raised by `DiscogsHTTPClient`.  Every constructor stores
the `message`, and—matching `DiscogsAPIException.__init__`—the fields
`status_code` and `request_id` it was raised with.  `networkError` is raised
by `_make_request` with only `message` and `request_id`, so its inherited
`status_code` attribute holds Python `None`. -/
inductive ApiError where
  | authenticationError (message : Json) (status_code : Int) (request_id : String)
  | resourceNotFoundError (message : Json) (status_code : Int) (request_id : String)
  | rateLimitError (message : Json) (retry_after : Int) (status_code : Int) (request_id : String)
  | badRequestError (message : Json) (status_code : Int) (request_id : String)
  | serverError (message : Json) (status_code : Int) (request_id : String)
  | networkError (message : String) (request_id : String)

/-- Value of the `status_code` attribute of a `DiscogsAPIException` instance.
The attribute always exists (it is set in `DiscogsAPIException.__init__`);
for `networkError` it is Python `None`, modelled as `none`. -/
def ApiError.status_code_attr : ApiError → Option Int
  | .authenticationError _ sc _ => some sc
  | .resourceNotFoundError _ sc _ => some sc
  | .rateLimitError _ _ sc _ => some sc
  | .badRequestError _ sc _ => some sc
  | .serverError _ sc _ => some sc
  | .networkError _ _ => none

/-- Python-level exceptions that escape `_handle_response` without being one
of the `DiscogsAPIException` classes: `attributeError` is raised by
`error_data.get(...)` when the decoded error body is not a dict, and
`valueError` by `int(...)` on an unparseable `Retry-After` header. -/
inductive PyCrash where
  | attributeError : PyCrash
  | valueError : PyCrash

/-- Overall outcome of `_handle_response`: a returned payload, a raised
`DiscogsAPIException`, or an uncaught Python exception. -/
inductive Outcome where
  | ok (data : Json) : Outcome
  | apiError (e : ApiError) : Outcome
  | crash (c : PyCrash) : Outcome

/-- The parts of a `requests.Response` that `_handle_response` reads.
`json? = none` models a body on which `response.json()` raises `ValueError`.
`retry_after_header` models `response.headers.get("Retry-After")`:
`none` = header absent, `some none` = present but not parseable by `int(...)`,
`some (some n)` = present and parsing to `n`. -/
structure HttpResponse where
  status_code : Int
  json? : Option Json
  text : String
  retry_after_header : Option (Option Int)

/-- The error-message extraction block of `_handle_response`:
`error_data = response.json(); message = error_data.get("message",
response.text or "Unknown error")`, where a `ValueError` from `json()` is
caught and replaced by `response.text or f"HTTP {code} error"`, but an
`AttributeError` from `.get` on a non-dict document is not caught. -/
def error_message (r : HttpResponse) : Except PyCrash Json :=
  match r.json? with
  | some (Json.obj fields) =>
      .ok ((fields.lookup "message").getD
        (Json.str (if r.text = "" then "Unknown error" else r.text)))
  | some _ => .error PyCrash.attributeError
  | none =>
      .ok (Json.str
        (if r.text = "" then "HTTP " ++ toString r.status_code ++ " error" else r.text))

/-- `DiscogsHTTPClient._handle_response` from `http_client.py`.  2xx returns
the decoded body (`{}` when `response.json()` raises `ValueError`); other
statuses extract a message and raise the exception selected by the
status-code ladder.  For 429, `int(response.headers.get("Retry-After", 60))`
yields the header value when parseable, `60` when the header is absent, and
raises `ValueError` when present but unparseable. -/
def handle_response (r : HttpResponse) (request_id : String) : Outcome :=
  if 200 ≤ r.status_code ∧ r.status_code < 300 then
    Outcome.ok (r.json?.getD (Json.obj []))
  else
    match error_message r with
    | .error c => Outcome.crash c
    | .ok message =>
      if r.status_code = 401 then
        Outcome.apiError (ApiError.authenticationError message r.status_code request_id)
      else if r.status_code = 404 then
        Outcome.apiError (ApiError.resourceNotFoundError message r.status_code request_id)
      else if r.status_code = 429 then
        match r.retry_after_header with
        | none =>
            Outcome.apiError (ApiError.rateLimitError message 60 r.status_code request_id)
        | some none => Outcome.crash PyCrash.valueError
        | some (some n) =>
            Outcome.apiError (ApiError.rateLimitError message n r.status_code request_id)
      else if 400 ≤ r.status_code ∧ r.status_code < 500 then
        Outcome.apiError (ApiError.badRequestError message r.status_code request_id)
      else
        Outcome.apiError (ApiError.serverError message r.status_code request_id)

/-- True when the body either fails to decode or decodes to a JSON object —
exactly the cases in which the message-extraction block of
`_handle_response` does not raise `AttributeError`. -/
def bodyDictOrUndecodable : Option Json → Bool
  | none => true
  | some (Json.obj _) => true
  | some _ => false

example :
    handle_response ⟨404, some (Json.obj [("message", Json.str "release not found")]), "", none⟩ "rid"
      = Outcome.apiError (ApiError.resourceNotFoundError (Json.str "release not found") 404 "rid") := rfl

example :
    handle_response ⟨429, none, "slow", some none⟩ "rid" = Outcome.crash PyCrash.valueError := rfl

/-! ### Retry handler (`retry_handler.py`) -/

/-- `calculate_backoff` from `retry_handler.py`:
`delay = min(backoff_factor ** (attempt - 1), max_delay)` followed by
`jitter = random.uniform(0, delay * 0.25)` and `return delay + jitter`.
The random draw is modelled by the explicit argument `jitter`; theorems
constrain it to the interval `[0, 0.25 * delay]` that `random.uniform`
guarantees. -/
def calculate_backoff (attempt : Nat) (backoff_factor max_delay jitter : ℚ) : ℚ :=
  min (backoff_factor ^ (attempt - 1)) max_delay + jitter

/-- Python membership test `status_code in retry_on_status_codes`, where the
attribute value may be `None` (`none`): `None` never equals an `int`, so a
`None` status code is in no list of integer codes. -/
def statusInList : Option Int → List Int → Bool
  | none, _ => false
  | some c, codes => codes.contains c

/-- The default allow-list `[429, 500, 502, 503, 504]` installed by
`RetryStrategy.__init__` (and usable as the decorator's
`retry_on_status_codes`). -/
def defaultRetryCodes : List Int := [429, 500, 502, 503, 504]

/-- `RetryStrategy` from `retry_handler.py` with its configuration fields. -/
structure RetryStrategy where
  max_retries : Nat
  backoff_factor : ℚ
  max_delay : ℚ
  retry_on_status_codes : List Int

/-- `RetryStrategy.should_retry`.  The exception is represented by the shape
of its `status_code` attribute: `none` = the exception has no such attribute
(`hasattr` is false), `some v` = the attribute exists with value `v`
(`v = none` standing for Python `None`). -/
def RetryStrategy.should_retry (s : RetryStrategy)
    (status_attr : Option (Option Int)) (attempt : Nat) : Bool :=
  if s.max_retries < attempt then false
  else
    match status_attr with
    | some v => statusInList v s.retry_on_status_codes
    | none => true

/-- The `status_code`-attribute shape of a `DiscogsAPIException`: the
attribute always exists, so `hasattr` succeeds and the value is
`status_code_attr`. -/
def statusAttrOf (e : ApiError) : Option (Option Int) :=
  some e.status_code_attr

/-- The status-code guard of the decorator:
`if retry_on_status_codes and hasattr(e, "status_code"): if status_code not
in retry_on_status_codes: raise`.  True exactly when the caught exception is
re-raised immediately because of its status code. -/
def statusBlocks {ε : Type} (statusOf : ε → Option (Option Int))
    (codes : List Int) (e : ε) : Bool :=
  match codes.isEmpty, statusOf e with
  | false, some v => ! statusInList v codes
  | _, _ => false

/-- The loop of the `retry_on_failure` decorator
(`for attempt in range(1, max_retries + 2)`).  `func i` is the outcome of
the `i`-th invocation of the wrapped function (1-indexed); `fuel` is the
number of loop iterations still available (the range has exactly
`max_retries + 1` of them); `attempt` is the current attempt index.
Returns the final outcome together with the index of the last invocation
made, i.e. the total number of invocations; `none` models the unreachable
fall-through after the loop (`raise last_exception` / `RuntimeError`).
An exception whose `status_code` attribute exists but is not in a non-empty
`retry_on_status_codes` list is re-raised immediately; otherwise the
exception is re-raised once `attempt > max_retries`, else the loop sleeps
and tries again. -/
def retryAux {α ε : Type} (statusOf : ε → Option (Option Int))
    (codes : List Int) (max_retries : Nat) (func : Nat → Except ε α) :
    (attempt fuel : Nat) → Option (Except ε α × Nat)
  | _, 0 => none
  | attempt, fuel + 1 =>
    match func attempt with
    | .ok a => some (.ok a, attempt)
    | .error e =>
      if statusBlocks statusOf codes e then some (.error e, attempt)
      else if max_retries < attempt then some (.error e, attempt)
      else retryAux statusOf codes max_retries func (attempt + 1) fuel

/-- `retry_on_failure(max_retries, ..., retry_on_status_codes)` applied to a
wrapped function: run the loop from attempt 1 with its full
`max_retries + 1` iterations.  An empty `codes` list models the falsy
decorator default `retry_on_status_codes=None`. -/
def retry_on_failure {α ε : Type} (statusOf : ε → Option (Option Int))
    (codes : List Int) (max_retries : Nat) (func : Nat → Except ε α) :
    Option (Except ε α × Nat) :=
  retryAux statusOf codes max_retries func 1 (max_retries + 1)

example :
    retry_on_failure statusAttrOf defaultRetryCodes 2
      (fun i => (.error (ApiError.serverError (Json.str "boom") 503 (toString i)) :
        Except ApiError Json))
      = some (.error (ApiError.serverError (Json.str "boom") 503 "3"), 3) := rfl

example :
    retry_on_failure statusAttrOf defaultRetryCodes 2
      (fun i => (.error (ApiError.serverError (Json.str "boom") 501 (toString i)) :
        Except ApiError Json))
      = some (.error (ApiError.serverError (Json.str "boom") 501 "1"), 1) := rfl

example :
    (RetryStrategy.mk 3 2 60 defaultRetryCodes).should_retry
      (statusAttrOf (ApiError.networkError "Connection error" "rid")) 1 = false := rfl

/-! ### Rate limiter (`rate_limiter.py`)

Timestamps are rationals; the deque `self.requests` is a `List ℚ`, oldest
first.  Each method takes the current list and the current time (`now =
time.time()`) and returns its result together with the new list. -/

/-- The pruning loop shared by `acquire`, `get_status` and `wait_if_needed`:
`while self.requests and self.requests[0] <= now - self.time_window:
self.requests.popleft()`. -/
def prune (W now : ℚ) : List ℚ → List ℚ
  | [] => []
  | t :: rest => if t ≤ now - W then prune W now rest else t :: rest

/-- `RateLimiter.__init__` configuration. -/
structure RateLimiter where
  max_requests : Nat
  time_window : ℚ

/-- The recursion of `RateLimiter.acquire`: prune, then if at the limit
compute `sleep_time = time_window - (now - requests[0])` (an `IndexError`,
modelled `none`, if the deque is empty, which requires `max_requests = 0`),
sleep when positive and re-enter the whole procedure at the wake-up time,
else append `now`.  `fuel` bounds the recursion depth; each nested call
prunes at least one timestamp, so `l.length + 2` levels always suffice and
`none` from exhausted fuel is unreachable from the wrapper below. -/
def acquireGo (max : Nat) (W : ℚ) : Nat → List ℚ → ℚ → Option (List ℚ × ℚ)
  | 0, _, _ => none
  | fuel + 1, l, now =>
    match prune W now l with
    | [] =>
      if max ≤ (0 : Nat) then none
      else some ([now], now)
    | t0 :: rest =>
      if max ≤ (t0 :: rest).length then
        if 0 < W - (now - t0) then
          acquireGo max W fuel (t0 :: rest) (now + (W - (now - t0)))
        else some ((t0 :: rest) ++ [now], now)
      else some ((t0 :: rest) ++ [now], now)

/-- `RateLimiter.acquire`, returning the new timestamp list together with
the time at which the call returns (entry time plus all the sleeping the
call performed). -/
def RateLimiter.acquire (rl : RateLimiter) (l : List ℚ) (now : ℚ) :
    Option (List ℚ × ℚ) :=
  acquireGo rl.max_requests rl.time_window (l.length + 2) l now

/-- The dictionary returned by `RateLimiter.get_status`. -/
structure RateStatus where
  requests_made : Nat
  requests_remaining : Int
  time_window : ℚ
  reset_time : ℚ

/-- `RateLimiter.get_status`: prune, then report the snapshot.
`requests_remaining = max_requests - len(requests)` is an integer (Python
subtraction); `reset_time` is `requests[0] + time_window` when the deque is
non-empty, else `now`. -/
def RateLimiter.get_status (rl : RateLimiter) (l : List ℚ) (now : ℚ) :
    RateStatus × List ℚ :=
  let l1 := prune rl.time_window now l
  (⟨l1.length, (rl.max_requests : Int) - l1.length, rl.time_window,
    match l1 with
    | [] => now
    | t0 :: _ => t0 + rl.time_window⟩, l1)

/-- `RateLimiter.wait_if_needed`: prune, then return
`max(0.0, time_window - (now - requests[0]))` when at the limit (an
`IndexError`, modelled `none`, if the deque is empty, which requires
`max_requests = 0`), else `0.0`.  The new list is the pruned one. -/
def RateLimiter.wait_if_needed (rl : RateLimiter) (l : List ℚ) (now : ℚ) :
    Option (ℚ × List ℚ) :=
  let l1 := prune rl.time_window now l
  if rl.max_requests ≤ l1.length then
    match l1 with
    | [] => none
    | t0 :: _ => some (max 0 (rl.time_window - (now - t0)), l1)
  else some (0, l1)

/-- `RateLimiter.reset`: clear all recorded timestamps. -/
def RateLimiter.reset (_rl : RateLimiter) (_l : List ℚ) : List ℚ := []

example :
    RateLimiter.acquire ⟨1, 1⟩ [0] (1/2) = some ([1], 1) := by
  norm_num [RateLimiter.acquire, acquireGo, prune]

example :
    RateLimiter.wait_if_needed ⟨1, 1⟩ [0] (1/2) = some (1/2, [0]) := by
  norm_num [RateLimiter.wait_if_needed, prune]

example :
    (RateLimiter.get_status ⟨2, 1⟩ [0, (1/2 : ℚ)] (5/4)).1.requests_remaining = 1 := by
  norm_num [RateLimiter.get_status, prune]

/-! ### Properties of pruning -/

theorem prune_length_le (W now : ℚ) (l : List ℚ) :
    (prune W now l).length ≤ l.length := by
  induction l with
  | nil => simp [prune]
  | cons t rest ih =>
    by_cases h : t ≤ now - W
    · simp only [prune, if_pos h]
      exact ih.trans (Nat.le_succ _)
    · simp [prune, if_neg h]

theorem prune_subset (W now : ℚ) (l : List ℚ) :
    ∀ t ∈ prune W now l, t ∈ l := by
  induction l with
  | nil => simp [prune]
  | cons u rest ih =>
    by_cases h : u ≤ now - W
    · simp only [prune, if_pos h]
      intro t ht
      exact List.mem_cons_of_mem _ (ih t ht)
    · simp [prune, if_neg h]

theorem prune_sorted (W now : ℚ) (l : List ℚ) (hs : l.Sorted (· ≤ ·)) :
    (prune W now l).Sorted (· ≤ ·) := by
  induction l with
  | nil => simp [prune]
  | cons u rest ih =>
    by_cases h : u ≤ now - W
    · simp only [prune, if_pos h]
      exact ih hs.of_cons
    · simpa [prune, if_neg h] using hs

theorem prune_head_gt (W now : ℚ) (l : List ℚ) (t0 : ℚ) (rest : List ℚ)
    (h : prune W now l = t0 :: rest) : now - W < t0 := by
  induction l with
  | nil => simp [prune] at h
  | cons u tail ih =>
    by_cases hc : u ≤ now - W
    · exact ih (by simpa [prune, if_pos hc] using h)
    · rw [prune, if_neg hc] at h
      cases h
      exact lt_of_not_le hc

theorem prune_mem_gt (W now : ℚ) (l : List ℚ) (hs : l.Sorted (· ≤ ·)) :
    ∀ t ∈ prune W now l, now - W < t := by
  induction l with
  | nil => simp [prune]
  | cons u rest ih =>
    by_cases hc : u ≤ now - W
    · simp only [prune, if_pos hc]
      exact ih hs.of_cons
    · simp only [prune, if_neg hc]
      intro t ht
      rcases List.mem_cons.mp ht with rfl | ht
      · exact lt_of_not_le hc
      · exact lt_of_lt_of_le (lt_of_not_le hc) ((List.sorted_cons.mp hs).1 t ht)

theorem prune_idem (W now : ℚ) (l : List ℚ) :
    prune W now (prune W now l) = prune W now l := by
  induction l with
  | nil => simp [prune]
  | cons u rest ih =>
    by_cases hc : u ≤ now - W
    · simp only [prune, if_pos hc]
      exact ih
    · simp [prune, if_neg hc]

/-! ### The RateWindow invariant -/

/-- The RateWindow invariant: recorded timestamps are ordered oldest-first,
all lie within `[now - time_window, now]`, and there are at most
`max_requests` of them. -/
structure RateInv (max : Nat) (W : ℚ) (l : List ℚ) (now : ℚ) : Prop where
  sorted : l.Sorted (· ≤ ·)
  lower : ∀ t ∈ l, now - W ≤ t
  upper : ∀ t ∈ l, t ≤ now
  size : l.length ≤ max

/-- Pruning an invariant-satisfying window at any later time re-establishes
the invariant at that time. -/
theorem RateInv.prune_self {max : Nat} {W : ℚ} {l : List ℚ} {now₀ : ℚ}
    (h : RateInv max W l now₀) (now : ℚ) (hle : now₀ ≤ now) :
    RateInv max W (prune W now l) now where
  sorted := prune_sorted W now l h.sorted
  lower := fun t ht => le_of_lt (prune_mem_gt W now l h.sorted t ht)
  upper := fun t ht => le_trans (h.upper t (prune_subset W now l t ht)) hle
  size := (prune_length_le W now l).trans h.size

/-- Invariant preservation along the `acquire` recursion: whenever the
recorded timestamps are sorted, at most `max` many, and no later than the
entry time, a successful `acquire` returns at a time `t' ≥ now` with the
invariant holding of the new window at `t'`. -/
theorem acquireGo_inv {max : Nat} {W : ℚ} (hW : 0 ≤ W) :
    ∀ (fuel : Nat) (l : List ℚ) (now : ℚ),
      l.Sorted (· ≤ ·) → (∀ t ∈ l, t ≤ now) → l.length ≤ max →
      ∀ l' t', acquireGo max W fuel l now = some (l', t') →
        now ≤ t' ∧ RateInv max W l' t' := by
  intro fuel
  induction fuel with
  | zero => intro l now _ _ _ l' t' h; simp [acquireGo] at h
  | succ fuel ih =>
    intro l now hs hub hsz l' t' h
    rw [acquireGo] at h
    rcases hp : prune W now l with _ | ⟨t0, rest⟩ <;> rw [hp] at h <;> dsimp only at h
    · by_cases hm : max ≤ (0 : Nat)
      · rw [if_pos hm] at h
        exact Option.noConfusion h
      · rw [if_neg hm] at h
        cases h
        refine ⟨le_refl _, ?_, ?_, ?_, ?_⟩
        · simp
        · intro t ht
          rcases List.mem_singleton.mp ht with rfl
          linarith
        · intro t ht
          rcases List.mem_singleton.mp ht with rfl
          exact le_refl _
        · simpa using Nat.lt_of_not_le hm
    · have hrest_mem : ∀ t ∈ t0 :: rest, t ∈ l := by
        rw [← hp]; exact prune_subset W now l
      have hrest_sorted : (t0 :: rest).Sorted (· ≤ ·) := by
        rw [← hp]; exact prune_sorted W now l hs
      have hrest_len : (t0 :: rest).length ≤ max := by
        rw [← hp]
        exact (prune_length_le W now l).trans hsz
      by_cases hm : max ≤ (t0 :: rest).length
      · rw [if_pos hm] at h
        have hsleep : 0 < W - (now - t0) := by
          have := prune_head_gt W now l t0 rest hp
          linarith
        rw [if_pos hsleep] at h
        have := ih (t0 :: rest) (now + (W - (now - t0))) hrest_sorted
          (fun t ht => le_trans (hub t (hrest_mem t ht)) (by linarith))
          hrest_len l' t' h
        exact ⟨le_trans (by linarith) this.1, this.2⟩
      · rw [if_neg hm] at h
        cases h
        have hlt : (t0 :: rest).length < max := Nat.lt_of_not_le hm
        refine ⟨le_refl _, ?_, ?_, ?_, ?_⟩
        · exact List.pairwise_append.mpr ⟨hrest_sorted, List.sorted_singleton _,
            fun a ha b hb => by
              rcases List.mem_singleton.mp hb with rfl
              exact hub a (hrest_mem a ha)⟩
        · intro t ht
          rcases List.mem_append.mp ht with ht | ht
          · exact le_of_lt (by rw [← hp] at ht; exact prune_mem_gt W now l hs t ht)
          · rcases List.mem_singleton.mp ht with rfl
            linarith
        · intro t ht
          rcases List.mem_append.mp ht with ht | ht
          · exact hub t (hrest_mem t ht)
          · rcases List.mem_singleton.mp ht with rfl
            exact le_refl _
        · simpa using hlt

/-- When, after pruning, the window is below the limit, `acquire` admits
immediately: it appends `now` and returns at `now`. -/
theorem acquire_below {max : Nat} {W : ℚ} {l : List ℚ} {now : ℚ}
    (h : (prune W now l).length < max) :
    RateLimiter.acquire ⟨max, W⟩ l now = some (prune W now l ++ [now], now) := by
  show acquireGo max W (l.length + 2) l now = _
  rw [acquireGo]
  rcases hp : prune W now l with _ | ⟨t0, rest⟩ <;> rw [hp] at h <;> dsimp only
  · rw [if_neg (by omega)]
    rfl
  · rw [if_neg (Nat.not_le_of_lt h)]

/-- When, after pruning, the window is exactly at the limit (and the limit
is positive), `acquire` sleeps once, for `time_window - (now - oldest)`,
wakes at `now + sleep = oldest + time_window`, finds the oldest timestamp
expired, prunes it, and admits: no second sleep is needed. -/
theorem acquire_at_limit {max : Nat} {W : ℚ} {l : List ℚ} {now t0 : ℚ}
    {rest : List ℚ} (hp : prune W now l = t0 :: rest)
    (hlen : (t0 :: rest).length = max) :
    RateLimiter.acquire ⟨max, W⟩ l now =
      some (prune W (now + (W - (now - t0))) rest ++ [now + (W - (now - t0))],
        now + (W - (now - t0))) := by
  have hsleep : 0 < W - (now - t0) := by
    have := prune_head_gt W now l t0 rest hp
    linarith
  have hlength : rest.length + 1 ≤ l.length := by
    have := prune_length_le W now l
    rw [hp] at this
    simpa using this
  have hlen' : rest.length + 1 = max := by simpa using hlen
  show acquireGo max W (l.length + 2) l now = _
  rw [acquireGo, hp]
  dsimp only
  rw [if_pos (le_of_eq hlen.symm), if_pos hsleep]
  set now' := now + (W - (now - t0)) with hnow'
  have hdrop : prune W now' (t0 :: rest) = prune W now' rest := by
    have ht0 : t0 ≤ now' - W := by rw [hnow']; linarith
    rw [prune, if_pos ht0]
  rw [acquireGo, hdrop]
  have hlt : (prune W now' rest).length < max := by
    have := prune_length_le W now' rest
    omega
  rcases hq : prune W now' rest with _ | ⟨u, us⟩ <;> rw [hq] at hlt <;> dsimp only
  · rw [if_neg (by omega)]
    rfl
  · rw [if_neg (Nat.not_le_of_lt hlt)]

/-- A wrapped function that fails on every attempt with exceptions the
status-code guard lets through is invoked on attempts
`attempt, attempt+1, ..., max_retries + 1` and the loop then re-raises the
exception of the final (most recent) invocation. -/
theorem retryAux_fail_retryable {α ε : Type} (statusOf : ε → Option (Option Int))
    (codes : List Int) (mr : Nat) (errs : Nat → ε)
    (hbl : ∀ i, statusBlocks statusOf codes (errs i) = false) :
    ∀ (fuel attempt : Nat), attempt + fuel = mr + 2 → 1 ≤ attempt → attempt ≤ mr + 1 →
      retryAux (α := α) statusOf codes mr (fun i => .error (errs i)) attempt fuel
        = some (.error (errs (mr + 1)), mr + 1) := by
  intro fuel
  induction fuel with
  | zero => intro attempt h1 _ h3; omega
  | succ fuel ih =>
    intro attempt h1 h2 h3
    rw [retryAux]
    dsimp only
    rw [hbl attempt, if_neg Bool.false_ne_true]
    by_cases hlast : mr < attempt
    · have : attempt = mr + 1 := by omega
      subst this
      rw [if_pos hlast]
    · rw [if_neg hlast]
      exact ih (attempt + 1) (by omega) (by omega) (by omega)

/-- A wrapped function that fails on every attempt with exceptions the
status-code guard lets through is invoked exactly `max_retries + 1` times
(one initial attempt plus `max_retries` retries), and the exception of the
last invocation is re-raised. -/
theorem retry_fail_retryable {α ε : Type} (statusOf : ε → Option (Option Int))
    (codes : List Int) (mr : Nat) (errs : Nat → ε)
    (hbl : ∀ i, statusBlocks statusOf codes (errs i) = false) :
    retry_on_failure (α := α) statusOf codes mr (fun i => .error (errs i))
      = some (.error (errs (mr + 1)), mr + 1) :=
  retryAux_fail_retryable statusOf codes mr errs hbl (mr + 1) 1 (by omega)
    (le_refl 1) (by omega)

/-- A wrapped function whose first failure carries a status code that the
(non-empty) allow-list rejects is invoked exactly once: the exception is
re-raised with no retry. -/
theorem retry_fail_blocked {α ε : Type} (statusOf : ε → Option (Option Int))
    (codes : List Int) (mr : Nat) (errs : Nat → ε)
    (hbl : statusBlocks statusOf codes (errs 1) = true) :
    retry_on_failure (α := α) statusOf codes mr (fun i => .error (errs i))
      = some (.error (errs 1), 1) := by
  rw [retry_on_failure, retryAux]
  dsimp only
  rw [hbl, if_pos rfl]

/-! ### Dispatcher classification lemmas -/

/-- When the body is undecodable or decodes to an object, message extraction
succeeds. -/
theorem error_message_ok (r : HttpResponse)
    (h : bodyDictOrUndecodable r.json? = true) :
    ∃ m, error_message r = .ok m := by
  rcases hb : r.json? with _ | j
  · exact ⟨_, by rw [error_message, hb]⟩
  · rcases j with _ | b | n | s | xs | fields
    all_goals rw [hb] at h
    all_goals first
      | (exact ⟨_, by rw [error_message, hb]⟩)
      | (exact absurd h (by simp [bodyDictOrUndecodable]))

/-- Unfolding of `_handle_response` on non-2xx statuses once message
extraction has succeeded. -/
theorem handle_response_eq (r : HttpResponse) (rid : String) (m : Json)
    (hm : error_message r = .ok m)
    (hn2 : ¬(200 ≤ r.status_code ∧ r.status_code < 300)) :
    handle_response r rid =
      if r.status_code = 401 then
        Outcome.apiError (ApiError.authenticationError m r.status_code rid)
      else if r.status_code = 404 then
        Outcome.apiError (ApiError.resourceNotFoundError m r.status_code rid)
      else if r.status_code = 429 then
        (match r.retry_after_header with
         | none => Outcome.apiError (ApiError.rateLimitError m 60 r.status_code rid)
         | some none => Outcome.crash PyCrash.valueError
         | some (some n) =>
             Outcome.apiError (ApiError.rateLimitError m n r.status_code rid))
      else if 400 ≤ r.status_code ∧ r.status_code < 500 then
        Outcome.apiError (ApiError.badRequestError m r.status_code rid)
      else
        Outcome.apiError (ApiError.serverError m r.status_code rid) := by
  rw [handle_response, if_neg hn2, hm]

/-- C8, confirmed.  For every completed response with status in
`[200, 300)`, `_handle_response` returns the decoded body as structured
data; an empty or non-decodable body (`response.json()` raising
`ValueError`) yields the empty result `{}`, never an error. -/
theorem handle_response_success (r : HttpResponse) (rid : String)
    (h : 200 ≤ r.status_code ∧ r.status_code < 300) :
    handle_response r rid = Outcome.ok (r.json?.getD (Json.obj [])) ∧
    (∀ j, r.json? = some j → handle_response r rid = Outcome.ok j) ∧
    (r.json? = none → handle_response r rid = Outcome.ok (Json.obj [])) := by
  have hmain : handle_response r rid = Outcome.ok (r.json?.getD (Json.obj [])) := by
    rw [handle_response, if_pos h]
  exact ⟨hmain, fun j hj => by rw [hmain, hj]; rfl, fun hj => by rw [hmain, hj]; rfl⟩

/-- Witness for C8 at a concrete input: a 204 with an empty body yields the
empty result. -/
theorem handle_response_success_witness :
    handle_response ⟨204, none, "", none⟩ "rid"
        = Outcome.ok ((none : Option Json).getD (Json.obj [])) ∧
    (∀ j, (none : Option Json) = some j →
        handle_response ⟨204, none, "", none⟩ "rid" = Outcome.ok j) ∧
    ((none : Option Json) = none →
        handle_response ⟨204, none, "", none⟩ "rid" = Outcome.ok (Json.obj [])) :=
  handle_response_success ⟨204, none, "", none⟩ "rid" (by norm_num)

/-- C2, counterexample.  A 429 response whose `Retry-After` header is
present but unparseable does not yield `RateLimited` with
`retry_after = 60`: `int(...)` raises an uncaught `ValueError`, so the
caller receives that `ValueError` and no `RateLimited` error at all. -/
theorem rateLimited_unparseable_counterexample :
    handle_response ⟨429, none, "slow down", some none⟩ "rid"
        = Outcome.crash PyCrash.valueError ∧
    handle_response ⟨429, none, "slow down", some none⟩ "rid"
        ≠ Outcome.apiError
            (ApiError.rateLimitError (Json.str "slow down") 60 429 "rid") := by
  refine ⟨rfl, fun h => ?_⟩
  have h' : Outcome.crash PyCrash.valueError
      = Outcome.apiError
          (ApiError.rateLimitError (Json.str "slow down") 60 429 "rid") := h
  exact Outcome.noConfusion h'

/-- C2, amended.  For every 429 response whose body is undecodable or
decodes to a JSON object, the caller receives `RateLimited` with
`retry_after` equal to the header value when the header is present and
parseable, and equal to 60 when the header is absent; when the header is
present but unparseable, `int(...)` raises `ValueError` instead (no
`RateLimited` is produced). -/
theorem rateLimited_retry_after_amended (r : HttpResponse) (rid : String)
    (h429 : r.status_code = 429)
    (hbody : bodyDictOrUndecodable r.json? = true) :
    (r.retry_after_header = none →
      ∃ m, handle_response r rid
          = Outcome.apiError (ApiError.rateLimitError m 60 429 rid)) ∧
    (∀ n, r.retry_after_header = some (some n) →
      ∃ m, handle_response r rid
          = Outcome.apiError (ApiError.rateLimitError m n 429 rid)) ∧
    (r.retry_after_header = some none →
      handle_response r rid = Outcome.crash PyCrash.valueError) := by
  obtain ⟨m, hm⟩ := error_message_ok r hbody
  rw [handle_response_eq r rid m hm (by omega),
    if_neg (by omega), if_neg (by omega), if_pos h429]
  refine ⟨fun hh => ?_, fun n hh => ?_, fun hh => ?_⟩ <;> rw [hh, h429]
  · exact ⟨m, rfl⟩
  · exact ⟨m, rfl⟩

/-- Witness for C2 (amended) at concrete inputs: header absent gives
`retry_after = 60`; header parsing to 30 gives `retry_after = 30`. -/
theorem rateLimited_retry_after_witness :
    ((none : Option (Option Int)) = none →
      ∃ m, handle_response ⟨429, none, "slow down", none⟩ "rid"
          = Outcome.apiError (ApiError.rateLimitError m 60 429 "rid")) ∧
    (∀ n, (none : Option (Option Int)) = some (some n) →
      ∃ m, handle_response ⟨429, none, "slow down", none⟩ "rid"
          = Outcome.apiError (ApiError.rateLimitError m n 429 "rid")) ∧
    ((none : Option (Option Int)) = some none →
      handle_response ⟨429, none, "slow down", none⟩ "rid"
          = Outcome.crash PyCrash.valueError) :=
  rateLimited_retry_after_amended ⟨429, none, "slow down", none⟩ "rid" rfl rfl

/-- C5, counterexample.  A 404 response whose body decodes to a JSON array
does not yield `NotFound`: `error_data.get("message", ...)` raises an
uncaught `AttributeError` on the non-dict document, so the caller receives
that `AttributeError` and no typed API error. -/
theorem notFound_array_body_counterexample :
    handle_response ⟨404, some (Json.arr []), "", none⟩ "rid"
        = Outcome.crash PyCrash.attributeError ∧
    handle_response ⟨404, some (Json.arr []), "", none⟩ "rid"
        ≠ Outcome.apiError
            (ApiError.resourceNotFoundError (Json.str "Unknown error") 404 "rid") := by
  refine ⟨rfl, fun h => ?_⟩
  have h' : Outcome.crash PyCrash.attributeError
      = Outcome.apiError
          (ApiError.resourceNotFoundError (Json.str "Unknown error") 404 "rid") := h
  exact Outcome.noConfusion h'

/-- C5, amended.  For every non-2xx response whose body is undecodable or
decodes to a JSON object: status 401 yields `AuthenticationError`, status
404 yields `ResourceNotFoundError`, any other status in `[400, 500)` except
the specially-handled 429 yields `BadRequestError`, and any status in
`[500, 600)` yields `ServerError`; in particular a 404 with body
`{"message": "release not found"}` yields `ResourceNotFoundError` with
message `"release not found"`.  (Bodies decoding to a non-object document
instead raise `AttributeError`, see the counterexample.) -/
theorem handle_response_classification_amended (r : HttpResponse) (rid : String)
    (hbody : bodyDictOrUndecodable r.json? = true) :
    (r.status_code = 401 →
      ∃ m, handle_response r rid
          = Outcome.apiError (ApiError.authenticationError m 401 rid)) ∧
    (r.status_code = 404 →
      ∃ m, handle_response r rid
          = Outcome.apiError (ApiError.resourceNotFoundError m 404 rid)) ∧
    (400 ≤ r.status_code → r.status_code < 500 →
      r.status_code ≠ 401 → r.status_code ≠ 404 → r.status_code ≠ 429 →
      ∃ m, handle_response r rid
          = Outcome.apiError (ApiError.badRequestError m r.status_code rid)) ∧
    (500 ≤ r.status_code → r.status_code < 600 →
      ∃ m, handle_response r rid
          = Outcome.apiError (ApiError.serverError m r.status_code rid)) ∧
    handle_response
        ⟨404, some (Json.obj [("message", Json.str "release not found")]), "", none⟩
        "rid"
      = Outcome.apiError
          (ApiError.resourceNotFoundError (Json.str "release not found") 404 "rid") := by
  obtain ⟨m, hm⟩ := error_message_ok r hbody
  refine ⟨fun h => ?_, fun h => ?_, fun h1 h2 h3 h4 h5 => ?_, fun h1 h2 => ?_, rfl⟩
  · rw [handle_response_eq r rid m hm (by omega), if_pos h, h]
    exact ⟨m, rfl⟩
  · rw [handle_response_eq r rid m hm (by omega), if_neg (by omega), if_pos h, h]
    exact ⟨m, rfl⟩
  · rw [handle_response_eq r rid m hm (by omega), if_neg h3, if_neg h4,
      if_neg h5, if_pos ⟨h1, h2⟩]
    exact ⟨m, rfl⟩
  · rw [handle_response_eq r rid m hm (by omega), if_neg (by omega),
      if_neg (by omega), if_neg (by omega), if_neg (by omega)]
    exact ⟨m, rfl⟩

/-- Witness for C5 (amended) at the concrete scenario input: a 404 with
body `{"message": "release not found"}`. -/
theorem handle_response_classification_witness :
    ((404 : Int) = 401 →
      ∃ m, handle_response
            ⟨404, some (Json.obj [("message", Json.str "release not found")]), "", none⟩
            "rid"
          = Outcome.apiError (ApiError.authenticationError m 401 "rid")) ∧
    ((404 : Int) = 404 →
      ∃ m, handle_response
            ⟨404, some (Json.obj [("message", Json.str "release not found")]), "", none⟩
            "rid"
          = Outcome.apiError (ApiError.resourceNotFoundError m 404 "rid")) ∧
    ((400 : Int) ≤ 404 → (404 : Int) < 500 →
      (404 : Int) ≠ 401 → (404 : Int) ≠ 404 → (404 : Int) ≠ 429 →
      ∃ m, handle_response
            ⟨404, some (Json.obj [("message", Json.str "release not found")]), "", none⟩
            "rid"
          = Outcome.apiError (ApiError.badRequestError m 404 "rid")) ∧
    ((500 : Int) ≤ 404 → (404 : Int) < 600 →
      ∃ m, handle_response
            ⟨404, some (Json.obj [("message", Json.str "release not found")]), "", none⟩
            "rid"
          = Outcome.apiError (ApiError.serverError m 404 "rid")) ∧
    handle_response
        ⟨404, some (Json.obj [("message", Json.str "release not found")]), "", none⟩
        "rid"
      = Outcome.apiError
          (ApiError.resourceNotFoundError (Json.str "release not found") 404 "rid") :=
  handle_response_classification_amended
    ⟨404, some (Json.obj [("message", Json.str "release not found")]), "", none⟩
    "rid" rfl

/-- C10, counterexample.  A response with status 300 (a non-2xx, non-401,
non-404, non-429 status outside `[400, 500)`) whose body decodes to a JSON
array does not raise `ServerError`: message extraction raises an uncaught
`AttributeError` first. -/
theorem serverError_fallthrough_counterexample :
    handle_response ⟨300, some (Json.arr []), "x", none⟩ "rid"
        = Outcome.crash PyCrash.attributeError ∧
    handle_response ⟨300, some (Json.arr []), "x", none⟩ "rid"
        ≠ Outcome.apiError (ApiError.serverError (Json.str "x") 300 "rid") := by
  refine ⟨rfl, fun h => ?_⟩
  have h' : Outcome.crash PyCrash.attributeError
      = Outcome.apiError (ApiError.serverError (Json.str "x") 300 "rid") := h
  exact Outcome.noConfusion h'

/-- C10, amended.  For every completed response whose status is not in
`[200, 300)`, not 401, not 404, not 429 and not in `[400, 500)` — including
3xx redirect statuses that reach response handling — and whose body is
undecodable or decodes to a JSON object, the final `else` of
`_handle_response` raises `ServerError` carrying that status code and the
correlation id.  (Bodies decoding to a non-object document instead raise
`AttributeError`, see the counterexample.) -/
theorem serverError_fallthrough_amended (r : HttpResponse) (rid : String)
    (hbody : bodyDictOrUndecodable r.json? = true)
    (h2 : ¬(200 ≤ r.status_code ∧ r.status_code < 300))
    (h401 : r.status_code ≠ 401) (h404 : r.status_code ≠ 404)
    (h429 : r.status_code ≠ 429)
    (h4xx : ¬(400 ≤ r.status_code ∧ r.status_code < 500)) :
    ∃ m, handle_response r rid
        = Outcome.apiError (ApiError.serverError m r.status_code rid) := by
  obtain ⟨m, hm⟩ := error_message_ok r hbody
  rw [handle_response_eq r rid m hm h2, if_neg h401, if_neg h404, if_neg h429,
    if_neg h4xx]
  exact ⟨m, rfl⟩

/-- Witness for C10 (amended) at a concrete input: a 302 redirect with an
undecodable body yields `ServerError` with status 302 and the correlation
id. -/
theorem serverError_fallthrough_witness :
    ∃ m, handle_response ⟨302, none, "Found", none⟩ "rid"
        = Outcome.apiError (ApiError.serverError m 302 "rid") :=
  serverError_fallthrough_amended ⟨302, none, "Found", none⟩ "rid" rfl
    (by norm_num) (by norm_num) (by norm_num) (by norm_num) (by norm_num)

/-- C1, counterexample.  A `NetworkError` is not considered retryable by
`should_retry`, even at attempt 1 of a default strategy (`max_retries = 3`):
because `NetworkError` inherits from `DiscogsAPIException`, the instance
always has a `status_code` attribute (here Python `None`), `hasattr`
succeeds, and `None in [429, 500, 502, 503, 504]` is false. -/
theorem should_retry_networkError_counterexample :
    (1 : Nat) ≤ 3 ∧
    (RetryStrategy.mk 3 2 60 defaultRetryCodes).should_retry
        (statusAttrOf (ApiError.networkError "Connection error" "rid")) 1 = false :=
  ⟨by omega, rfl⟩

/-- C1, amended.  For `attempt ≤ max_retries`, `should_retry` returns true
for an error with no `status_code` attribute at all, and for an error with
the attribute (every `DiscogsAPIException`, including `NetworkError`, whose
attribute value is then Python `None`) it returns true iff the attribute
value is in the configured allow-list — so a `NetworkError` (value `None`)
yields false.  The default allow-list is `[429, 500, 502, 503, 504]`. -/
theorem should_retry_amended (mr attempt : Nat) (bf md : ℚ) (codes : List Int)
    (status_attr : Option (Option Int)) (h : attempt ≤ mr) :
    (RetryStrategy.mk mr bf md codes).should_retry status_attr attempt
        = (match status_attr with
           | none => true
           | some v => statusInList v codes) ∧
    defaultRetryCodes = [429, 500, 502, 503, 504] := by
  refine ⟨?_, rfl⟩
  rw [RetryStrategy.should_retry.eq_def]
  dsimp only
  rw [if_neg (by omega)]
  rcases status_attr with _ | v <;> rfl

/-- Witness for C1 (amended) at a concrete input: a 429-carrying error at
attempt 2 of 3 is retryable. -/
theorem should_retry_amended_witness :
    (RetryStrategy.mk 3 2 60 defaultRetryCodes).should_retry (some (some 429)) 2
        = (match (some (some 429) : Option (Option Int)) with
           | none => true
           | some v => statusInList v defaultRetryCodes) ∧
    defaultRetryCodes = [429, 500, 502, 503, 504] :=
  should_retry_amended 3 2 2 60 defaultRetryCodes (some (some 429)) (by omega)

/-- C4, counterexample.  With the default allow-list, a wrapped operation
that always fails with a `ServerError` carrying status 501 — a status in
the 500–504 range the claim asserts is retried — is invoked exactly once
and the error re-raised immediately: 501 is not in
`[429, 500, 502, 503, 504]`. -/
theorem retry_501_counterexample :
    ((500 : Int) ≤ 501 ∧ (501 : Int) ≤ 504) ∧
    retry_on_failure statusAttrOf defaultRetryCodes 2
        (fun i => (.error (ApiError.serverError (Json.str "boom") 501 (toString i)) :
          Except ApiError Json))
      = some (.error (ApiError.serverError (Json.str "boom") 501 "1"), 1) ∧
    (1 : Nat) ≠ 2 + 1 :=
  ⟨by norm_num, rfl, by omega⟩

/-- C4, amended.  With the default allow-list, a wrapped operation that
always fails with errors carrying a status code in the allow-list
`[429, 500, 502, 503, 504]` (so 500, 502, 503, 504 — but not 501) is
invoked exactly `max_retries + 1` times (1 initial attempt plus
`max_retries` retries) and then the most recent error is re-raised; an
error with status 400 is never retried: its first occurrence is re-raised
at once.  The spec scenario (`max_retries = 2`, always failing with a
`ServerError` of status 503, exactly 3 invocations) is the instance
`mr = 2`, `c = 503` of the first part, see the witness. -/
theorem retry_allowlist_amended {α : Type} (mr : Nat) (errs : Nat → ApiError)
    (c : Int) (hc : statusInList (some c) defaultRetryCodes = true)
    (hstat : ∀ i, (errs i).status_code_attr = some c) :
    retry_on_failure (α := α) statusAttrOf defaultRetryCodes mr
        (fun i => .error (errs i))
      = some (.error (errs (mr + 1)), mr + 1) ∧
    (∀ errs' : Nat → ApiError, (∀ i, (errs' i).status_code_attr = some 400) →
      retry_on_failure (α := α) statusAttrOf defaultRetryCodes mr
          (fun i => .error (errs' i))
        = some (.error (errs' 1), 1)) := by
  constructor
  · refine retry_fail_retryable statusAttrOf defaultRetryCodes mr errs (fun i => ?_)
    rw [statusBlocks, statusAttrOf, hstat i]
    simpa [defaultRetryCodes] using hc
  · intro errs' hstat'
    refine retry_fail_blocked statusAttrOf defaultRetryCodes mr errs' ?_
    rw [statusBlocks, statusAttrOf, hstat' 1]
    rfl

/-- Witness for C4 (amended): the spec scenario.  `max_retries = 2`, every
attempt failing with a `ServerError` of status 503: exactly 3 invocations
(attempts 1, 2, 3) and the error of the third — most recent — invocation is
re-raised; and a 400-carrying error is raised after exactly one
invocation. -/
theorem retry_allowlist_witness :
    retry_on_failure (α := Json) statusAttrOf defaultRetryCodes 2
        (fun i => .error (ApiError.serverError (Json.str "boom") 503 (toString i)))
      = some (.error (ApiError.serverError (Json.str "boom") 503 (toString (2 + 1))), 2 + 1) ∧
    (∀ errs' : Nat → ApiError, (∀ i, (errs' i).status_code_attr = some 400) →
      retry_on_failure (α := Json) statusAttrOf defaultRetryCodes 2
          (fun i => .error (errs' i))
        = some (.error (errs' 1), 1)) :=
  retry_allowlist_amended 2
    (fun i => ApiError.serverError (Json.str "boom") 503 (toString i)) 503
    rfl (fun _ => rfl)

/-- C7, confirmed.  For every attempt `n ≥ 1` and every jitter draw in the
`random.uniform(0, 0.25 * delay)` range, `calculate_backoff` equals
`min(backoff_factor ^ (n - 1), max_delay)` plus the jitter, and is bounded
above by `max_delay + 0.25 * max_delay`. -/
theorem calculate_backoff_bound (n : Nat) (bf md j : ℚ) (_hn : 1 ≤ n)
    (_hj0 : 0 ≤ j) (hj1 : j ≤ 0.25 * min (bf ^ (n - 1)) md) :
    calculate_backoff n bf md j = min (bf ^ (n - 1)) md + j ∧
    calculate_backoff n bf md j ≤ md + 0.25 * md := by
  refine ⟨rfl, ?_⟩
  have hmin : min (bf ^ (n - 1)) md ≤ md := min_le_right _ _
  rw [calculate_backoff]
  linarith

/-- Witness for C7 at a concrete input: attempt 1 with `backoff_factor = 2`,
`max_delay = 60` and zero jitter gives delay `min(2^0, 60) + 0 = 1`,
within the bound `75`. -/
theorem calculate_backoff_bound_witness :
    calculate_backoff 1 2 60 0 = min ((2 : ℚ) ^ (1 - 1)) 60 + 0 ∧
    calculate_backoff 1 2 60 0 ≤ 60 + 0.25 * 60 :=
  calculate_backoff_bound 1 2 60 0 (le_refl 1) (le_refl 0) (by norm_num)

/-- C3, confirmed.  For every rate-limiter state within its size bound (the
RateWindow invariant) and positive `max_requests`, `wait_if_needed` returns
a delay `d ≥ 0` equal to the delay `acquire` would currently impose
(`acquire` on the same state returns at exactly `now + d`), and it leaves
the recorded timestamp window unchanged: the new list prunes to the same
in-window timestamps as the old one. -/
theorem wait_if_needed_matches_acquire (rl : RateLimiter) (l : List ℚ)
    (now : ℚ) (hmax : 0 < rl.max_requests)
    (hsize : (prune rl.time_window now l).length ≤ rl.max_requests) :
    ∃ d l₁ l₂ t₂,
      rl.wait_if_needed l now = some (d, l₁) ∧ 0 ≤ d ∧
      rl.acquire l now = some (l₂, t₂) ∧ t₂ = now + d ∧
      prune rl.time_window now l₁ = prune rl.time_window now l := by
  obtain ⟨max, W⟩ := rl
  dsimp only at hmax hsize ⊢
  by_cases hfull : max ≤ (prune W now l).length
  · have hlen : (prune W now l).length = max := le_antisymm hsize hfull
    rcases hp : prune W now l with _ | ⟨t0, rest⟩
    · rw [hp] at hlen
      simp at hlen
      omega
    · have hsleep : 0 < W - (now - t0) := by
        have := prune_head_gt W now l t0 rest hp
        linarith
      rw [hp] at hlen
      refine ⟨W - (now - t0), t0 :: rest, _, _, ?_, le_of_lt hsleep,
        acquire_at_limit hp hlen, rfl, ?_⟩
      · rw [RateLimiter.wait_if_needed]
        dsimp only
        rw [hp]
        dsimp only
        rw [if_pos (le_of_eq hlen.symm), max_eq_right (le_of_lt hsleep)]
      · rw [← hp, prune_idem]
  · have hlt : (prune W now l).length < max := Nat.lt_of_not_le hfull
    refine ⟨0, prune W now l, _, _, ?_, le_refl 0, acquire_below hlt,
      by ring, prune_idem W now l⟩
    rw [RateLimiter.wait_if_needed]
    dsimp only
    rcases hp : prune W now l with _ | ⟨t0, rest⟩ <;> rw [hp] at hlt <;> dsimp only
    · rw [if_neg (by omega)]
    · rw [if_neg (Nat.not_le_of_lt hlt)]

/-- Witness for C3 at a concrete input: one recorded timestamp `0`, limit 1
per 1-second window, at time `1/2`.  `wait_if_needed` reports delay `1/2`
and `acquire` returns at `1/2 + 1/2 = 1`. -/
theorem wait_if_needed_matches_acquire_witness :
    ∃ d l₁ l₂ t₂,
      RateLimiter.wait_if_needed ⟨1, 1⟩ [0] (1/2) = some (d, l₁) ∧ 0 ≤ d ∧
      RateLimiter.acquire ⟨1, 1⟩ [0] (1/2) = some (l₂, t₂) ∧ t₂ = 1/2 + d ∧
      prune 1 (1/2) l₁ = prune 1 (1/2) [0] :=
  wait_if_needed_matches_acquire ⟨1, 1⟩ [0] (1/2) (by norm_num)
    (by norm_num [prune])

/-- C6, confirmed.  The RateWindow invariant — timestamps ordered
oldest-first, all within `[now - time_window, now]` after pruning, and at
most `max_requests` of them — is preserved by every operation of the
`RateLimiter`: `get_status`, `wait_if_needed`, `acquire` (at its return
time) and `reset`. -/
theorem rateWindow_invariant_preserved (rl : RateLimiter) (l : List ℚ)
    (now₀ now : ℚ) (hinv : RateInv rl.max_requests rl.time_window l now₀)
    (hle : now₀ ≤ now) (hW : 0 ≤ rl.time_window) :
    RateInv rl.max_requests rl.time_window (rl.get_status l now).2 now ∧
    (∀ d l₁, rl.wait_if_needed l now = some (d, l₁) →
      RateInv rl.max_requests rl.time_window l₁ now) ∧
    (∀ l₂ t₂, rl.acquire l now = some (l₂, t₂) →
      now ≤ t₂ ∧ RateInv rl.max_requests rl.time_window l₂ t₂) ∧
    RateInv rl.max_requests rl.time_window (rl.reset l) now := by
  obtain ⟨max, W⟩ := rl
  dsimp only at hinv hW ⊢
  refine ⟨hinv.prune_self now hle, ?_, ?_, ?_⟩
  · intro d l₁ h
    have hl₁ : l₁ = prune W now l := by
      rw [RateLimiter.wait_if_needed] at h
      dsimp only at h
      rcases hp : prune W now l with _ | ⟨t0, rest⟩ <;> rw [hp] at h <;>
        dsimp only at h
      · by_cases hm : max ≤ ([] : List ℚ).length
        · rw [if_pos hm] at h
          exact Option.noConfusion h
        · rw [if_neg hm] at h
          cases h
          rfl
      · by_cases hm : max ≤ (t0 :: rest).length
        · rw [if_pos hm] at h
          cases h
          rfl
        · rw [if_neg hm] at h
          cases h
          rfl
    rw [hl₁]
    exact hinv.prune_self now hle
  · intro l₂ t₂ h
    exact acquireGo_inv hW (l.length + 2) l now hinv.sorted
      (fun t ht => (hinv.upper t ht).trans hle) hinv.size l₂ t₂ h
  · exact ⟨List.sorted_nil, by simp [RateLimiter.reset], by simp [RateLimiter.reset],
      Nat.zero_le _⟩

/-- Witness for C6 at a concrete input: two timestamps `[0, 1]` in a
2-request / 2-second window, invariant established at time 1, operations
run at time 2. -/
theorem rateWindow_invariant_preserved_witness :
    RateInv 2 2 (RateLimiter.get_status ⟨2, 2⟩ [0, 1] 2).2 2 ∧
    (∀ d l₁, RateLimiter.wait_if_needed ⟨2, 2⟩ [0, 1] 2 = some (d, l₁) →
      RateInv 2 2 l₁ 2) ∧
    (∀ l₂ t₂, RateLimiter.acquire ⟨2, 2⟩ [0, 1] 2 = some (l₂, t₂) →
      (2 : ℚ) ≤ t₂ ∧ RateInv 2 2 l₂ t₂) ∧
    RateInv 2 2 (RateLimiter.reset ⟨2, 2⟩ [0, 1]) 2 :=
  rateWindow_invariant_preserved ⟨2, 2⟩ [0, 1] 1 2
    ⟨by norm_num [List.sorted_cons],
     by
       intro t ht
       simp only [List.mem_cons, List.mem_singleton, List.not_mem_nil, or_false] at ht
       rcases ht with rfl | rfl <;> norm_num,
     by
       intro t ht
       simp only [List.mem_cons, List.mem_singleton, List.not_mem_nil, or_false] at ht
       rcases ht with rfl | rfl <;> norm_num,
     by norm_num⟩
    (by norm_num) (by norm_num)

/-- C9, confirmed.  Calling `get_status` twice with no `acquire` in between
(and time not decreasing) yields stable, non-decreasing
`requests_remaining`: the second value is at least the first, and at equal
times the whole status (and the state) is unchanged. -/
theorem get_status_idempotent (rl : RateLimiter) (l : List ℚ) (now now' : ℚ)
    (_h : now ≤ now') :
    (rl.get_status l now).1.requests_remaining
        ≤ (rl.get_status (rl.get_status l now).2 now').1.requests_remaining ∧
    (now' = now →
      rl.get_status (rl.get_status l now).2 now' = rl.get_status l now) := by
  obtain ⟨max, W⟩ := rl
  constructor
  · show (max : Int) - (prune W now l).length
        ≤ (max : Int) - (prune W now' (prune W now l)).length
    have := prune_length_le W now' (prune W now l)
    omega
  · intro he
    subst he
    simp only [RateLimiter.get_status, prune_idem]

/-- Witness for C9 at a concrete input: repeated `get_status` at the same
time 1 on the one-timestamp state `[0]`. -/
theorem get_status_idempotent_witness :
    (RateLimiter.get_status ⟨2, 1⟩ [0] 1).1.requests_remaining
        ≤ (RateLimiter.get_status ⟨2, 1⟩
            (RateLimiter.get_status ⟨2, 1⟩ [0] 1).2 1).1.requests_remaining ∧
    ((1 : ℚ) = 1 →
      RateLimiter.get_status ⟨2, 1⟩ (RateLimiter.get_status ⟨2, 1⟩ [0] 1).2 1
        = RateLimiter.get_status ⟨2, 1⟩ [0] 1) :=
  get_status_idempotent ⟨2, 1⟩ [0] 1 1 (le_refl 1)
